import Mathlib

/- Verification of the forceops deletion engine: a shallow embedding of
   src/deleter.rs, src/lock_checker.rs and src/elevation.rs.  The parts of
   each operation that depend on the operating system (the outcome of each
   underlying removal call, the existence re-checks, the set of enumerated
   processes and their working directories) are supplied by explicit
   environment records, and the engine's observable behaviour is recorded
   as an event trace (read-only clearing, removal attempts, sleeps,
   termination requests). -/

namespace ForceOps

/-- The kinds of std io errors the deleter inspects (PermissionDenied,
WouldBlock, Other), plus kinds it never treats specially. -/
inductive EKind
  | notFound
  | permissionDenied
  | wouldBlock
  | other
  | uncategorized
deriving DecidableEq

/-- A std io error as the deleter observes it: its ErrorKind, its raw OS
error code when present, and its display message. -/
structure IoErr where
  kind : EKind
  raw : Option Nat
  msg : String
deriving DecidableEq

/-- deleter.rs `is_io_error`: raw OS code 32 (sharing violation) or
33 (lock violation), or ErrorKind::Other. -/
def is_io_error (e : IoErr) : Bool :=
  e.raw == some 32 || e.raw == some 33 || e.kind == EKind.other

/-- deleter.rs `is_io_or_permission_error`: PermissionDenied or WouldBlock,
or anything `is_io_error` accepts. -/
def is_io_or_permission_error (e : IoErr) : Bool :=
  e.kind == EKind.permissionDenied || e.kind == EKind.wouldBlock || is_io_error e

/-- The raw-code test of delete_directory's fast path:
`e.raw_os_error().is_some_and(|code| code == 32 || code == 33)`. -/
def is_lock_error_raw (e : IoErr) : Bool :=
  e.raw == some 32 || e.raw == some 33

/-- config.rs ForceOpsConfig. -/
structure ForceOpsConfig where
  max_retries : Nat
  retry_delay_ms : Nat
  disable_elevate : Bool

/-- Observable events of one deletion operation, in program order. -/
inductive Event
  | markNotReadonly
  | removeFile (attempt : Nat)
  | fastRemove (attempt : Nat)
  | removeDir (attempt : Nat)
  | sleep (ms : Nat)
  | kill (pids : List Nat)
deriving DecidableEq

/-- Outcome of a deletion operation: Ok(()) or Err with a display message. -/
inductive Res
  | ok
  | errMsg (s : String)
deriving DecidableEq

/-- Environment of one retry loop: the io outcome of the underlying remove
call on each attempt (numbered from 1), the result of the `path.exists()`
re-check made after a failed attempt, and the process ids produced by the
lock inspection on each attempt. -/
structure AttemptEnv where
  remove : Nat → Option IoErr
  exists_after : Nat → Bool
  procs : Nat → List Nat

/-- deleter.rs `kill_processes_and_log_info`: when the attempt number
exceeds max_retries it only logs and reports "throw" (true); otherwise it
fetches the holder list, logs, sleeps for retry_delay_ms, issues the
termination requests, and reports "continue" (false). -/
def kill_processes_and_log_info (cfg : ForceOpsConfig) (attempt_number : Nat)
    (procs : List Nat) : Bool × List Event :=
  if attempt_number > cfg.max_retries then (true, [])
  else (false, [Event.sleep cfg.retry_delay_ms, Event.kill procs])

/-- The terminal message built after delete_file's loop:
"Failed to delete file '<path>' after <n> retries". -/
def exceeded_file_msg (path : String) (n : Nat) : String :=
  "Failed to delete file '" ++ path ++ "' after " ++ toString n ++ " retries"

/-- The terminal message built after the directory loops:
"Failed to delete directory '<path>' after <n> retries". -/
def exceeded_dir_msg (path : String) (n : Nat) : String :=
  "Failed to delete directory '" ++ path ++ "' after " ++ toString n ++ " retries"

/-- delete_file_or_directory's missing-path message. -/
def no_such_file_msg (path : String) : String :=
  "Cannot remove '" ++ path ++ "'. No such file or directory"

/-- The body of delete_file's `for attempt in 1..=max_retries+1` loop:
`a` is the current attempt number, `r` the number of loop iterations left.
Each iteration clears the read-only attribute (best effort), calls
fs::remove_file, returns Ok on success or when the path has vanished,
runs the kill-and-log cycle on an `is_io_or_permission_error` failure, and
propagates any other failure at once. -/
def delete_file_loop (cfg : ForceOpsConfig) (env : AttemptEnv) (path : String) :
    Nat → Nat → Res × List Event
  | _, 0 => (Res.errMsg (exceeded_file_msg path cfg.max_retries), [])
  | a, r + 1 =>
    let pre := [Event.markNotReadonly, Event.removeFile a]
    match env.remove a with
    | none => (Res.ok, pre)
    | some e =>
      if env.exists_after a = false then (Res.ok, pre)
      else if is_io_or_permission_error e then
        let kr := kill_processes_and_log_info cfg a (env.procs a)
        if kr.1 then (Res.errMsg e.msg, pre ++ kr.2)
        else
          let rec_result := delete_file_loop cfg env path (a + 1) r
          (rec_result.1, pre ++ kr.2 ++ rec_result.2)
      else (Res.errMsg e.msg, pre)

/-- deleter.rs `delete_file`. -/
def delete_file (cfg : ForceOpsConfig) (env : AttemptEnv) (path : String) :
    Res × List Event :=
  delete_file_loop cfg env path 1 (cfg.max_retries + 1)

/-- The body of delete_empty_directory's retry loop: identical shape to
delete_file's loop, but calling fs::remove_dir and retrying only on
`is_io_error` failures. -/
def delete_empty_directory_loop (cfg : ForceOpsConfig) (env : AttemptEnv)
    (path : String) : Nat → Nat → Res × List Event
  | _, 0 => (Res.errMsg (exceeded_dir_msg path cfg.max_retries), [])
  | a, r + 1 =>
    let pre := [Event.markNotReadonly, Event.removeDir a]
    match env.remove a with
    | none => (Res.ok, pre)
    | some e =>
      if env.exists_after a = false then (Res.ok, pre)
      else if is_io_error e then
        let kr := kill_processes_and_log_info cfg a (env.procs a)
        if kr.1 then (Res.errMsg e.msg, pre ++ kr.2)
        else
          let rec_result := delete_empty_directory_loop cfg env path (a + 1) r
          (rec_result.1, pre ++ kr.2 ++ rec_result.2)
      else (Res.errMsg e.msg, pre)

/-- deleter.rs `delete_empty_directory`. -/
def delete_empty_directory (cfg : ForceOpsConfig) (env : AttemptEnv)
    (path : String) : Res × List Event :=
  delete_empty_directory_loop cfg env path 1 (cfg.max_retries + 1)

/-- Environment of delete_directory: whether the target is a symlink, the
outcome of each fast `remove_dir_all` attempt, the two `path.exists()`
checks inside the loop body (the guard after a failure, and the re-check
taken before descending to the slow path), the low-level holder pids, the
result of the slow path `delete_directory_slow` (whose internals are not
needed by any claim and are supplied as an oracle value), and the
environment of the delete_empty_directory call taken for symlinks. -/
structure DirEnv where
  is_symlink : Bool
  fast : Nat → Option IoErr
  exists_after : Nat → Bool
  exists_recheck : Nat → Bool
  procs : Nat → List Nat
  slow : Res
  empty_env : AttemptEnv

/-- The fast-path loop of delete_directory: each iteration calls the
parallel `remove_dir_all`; success or a vanished path gives Ok; a raw OS
code 32/33 failure runs the kill-and-log cycle and retries; any other
failure falls back to the slow path when the path still exists, otherwise
propagates. -/
def delete_directory_loop (cfg : ForceOpsConfig) (env : DirEnv) (path : String) :
    Nat → Nat → Res × List Event
  | _, 0 => (Res.errMsg (exceeded_dir_msg path cfg.max_retries), [])
  | a, r + 1 =>
    let pre := [Event.fastRemove a]
    match env.fast a with
    | none => (Res.ok, pre)
    | some e =>
      if env.exists_after a = false then (Res.ok, pre)
      else if is_lock_error_raw e then
        let kr := kill_processes_and_log_info cfg a (env.procs a)
        if kr.1 then (Res.errMsg e.msg, pre ++ kr.2)
        else
          let rec_result := delete_directory_loop cfg env path (a + 1) r
          (rec_result.1, pre ++ kr.2 ++ rec_result.2)
      else if env.exists_recheck a then (env.slow, pre)
      else (Res.errMsg e.msg, pre)

/-- deleter.rs `delete_directory`: a symlink target is handed straight to
delete_empty_directory (only the link entry is removed); otherwise the
fast-path retry loop runs. -/
def delete_directory (cfg : ForceOpsConfig) (env : DirEnv) (path : String) :
    Res × List Event :=
  if env.is_symlink then delete_empty_directory cfg env.empty_env path
  else delete_directory_loop cfg env path 1 (cfg.max_retries + 1)

/-- Whether `pat` occurs as a contiguous run inside `l`. -/
def charsInfix (pat : List Char) : List Char → Bool
  | [] => pat.isEmpty
  | c :: rest => List.isPrefixOf pat (c :: rest) || charsInfix pat rest

/-- Substring test used to model Rust's `str::contains`. -/
def strContains (s pat : String) : Bool :=
  charsInfix pat.toList s.toList

/-- ASCII lower-casing over the character list of a string (the paths and
messages compared by the program are ASCII). -/
def strToLower (s : String) : String :=
  String.mk (s.data.map Char.toLower)

/-- `str::starts_with` modelled on the character lists. -/
def strStartsWith (s pat : String) : Bool :=
  List.isPrefixOf pat.data s.data

/-- elevation.rs `is_permission_error`: the lower-cased display message of
the error contains "access", "permission" or "denied". -/
def is_permission_error (msg : String) : Bool :=
  let err_string := strToLower msg
  strContains err_string "access" || strContains err_string "permission" ||
    strContains err_string "denied"

/-- Observable events of run_with_relaunch_as_elevated. -/
inductive ElevEvent
  | runAction
  | relaunch
deriving DecidableEq

/-- Environment of run_with_relaunch_as_elevated: the outcome of the
wrapped action (none = Ok, some msg = Err with that display message),
whether the current process is elevated, and the outcome of
relaunch_as_elevated (an error message, or the child's exit code). -/
structure ElevEnv where
  action : Option String
  is_elevated : Bool
  relaunch_exit : Except String Nat

/-- elevation.rs `run_with_relaunch_as_elevated`: run the action once; on
a permission-classified failure while not elevated, relaunch elevated and
relay the child's outcome; otherwise propagate the action's error. -/
def run_with_relaunch_as_elevated (env : ElevEnv) : Res × List ElevEvent :=
  match env.action with
  | none => (Res.ok, [ElevEvent.runAction])
  | some msg =>
    if is_permission_error msg && !env.is_elevated then
      match env.relaunch_exit with
      | Except.error e => (Res.errMsg e, [ElevEvent.runAction, ElevEvent.relaunch])
      | Except.ok exit_code =>
        if exit_code ≠ 0 then
          (Res.errMsg ("Child process failed with exit code " ++ toString exit_code),
            [ElevEvent.runAction, ElevEvent.relaunch])
        else (Res.ok, [ElevEvent.runAction, ElevEvent.relaunch])
    else (Res.errMsg msg, [ElevEvent.runAction])

/-- lock_checker.rs ProcessInfo. -/
structure ProcessInfo where
  process_id : Nat
  executable_name : Option String
  application_name : Option String
deriving DecidableEq

/-- lock_checker.rs LockCheckError (the variants the directory scan can
produce). -/
inductive LockCheckError
  | FileNotFound (msg : String)
deriving DecidableEq

/-- The normalisation applied to both sides of the directory-scan
comparison: lower-case, then strip a leading verbatim `\\?\`. -/
def normalizeKey (s : String) : String :=
  let lower := strToLower s
  if strStartsWith lower "\\\\?\\" then String.mk (lower.data.drop 4) else lower

/-- Environment of get_locking_processes_low_level: the result of
canonicalizing the target (none = error), whether EnumProcesses succeeded,
the enumerated pids, the caller's own pid, and per-pid oracles for the
PEB-read working directory and the executable path. -/
structure ScanEnv where
  canonical : Option String
  enum_ok : Bool
  pids : List Nat
  current_pid : Nat
  cwd : Nat → Option String
  exe : Nat → Option String

/-- lock_checker.rs `get_locking_processes_low_level`: canonicalize and
normalize the target; enumerate pids (a failed EnumProcesses yields Ok []);
skip pid 0 and the caller's pid; skip pids whose working directory cannot
be read; report a pid when, after normalisation, one key starts with the
other. The enumeration buffer holds at most 4096 pids. -/
def get_locking_processes_low_level (env : ScanEnv) (path : String) :
    Except LockCheckError (List ProcessInfo) :=
  match env.canonical with
  | none =>
    Except.error (LockCheckError.FileNotFound
      ("Cannot canonicalize '" ++ path ++ "'"))
  | some canon =>
    let target_path_clean := normalizeKey canon
    if env.enum_ok = false then Except.ok []
    else
      Except.ok ((env.pids.take 4096).filterMap (fun pid =>
        if pid == 0 || pid == env.current_pid then none
        else
          match env.cwd pid with
          | none => none
          | some c =>
            let cwd_clean := normalizeKey c
            if strStartsWith cwd_clean target_path_clean ||
                strStartsWith target_path_clean cwd_clean then
              some { process_id := pid, executable_name := env.exe pid,
                     application_name := env.exe pid }
            else none))

/- A concrete single-actor filesystem model, used for the claims about
symbolic-link handling.  Paths are component lists; the store maps each
existing path to its node (regular file, directory, or symbolic link with
its target).  No other process contends for the files here, so the
lock-class OS conditions (sharing violation 32/33, WouldBlock, the
contention uses of ErrorKind::Other) never arise, and permission errors do
not arise either: every primitive failure is non-retryable. -/

/-- A filesystem path as a list of components. -/
abbrev FPath := List String

/-- A filesystem node. -/
inductive Node
  | file
  | dir
  | symlink (target : FPath)
deriving DecidableEq

/-- The filesystem store: an association list from paths to nodes. -/
abbrev Fs := List (FPath × Node)

/-- Follow symbolic links at the final component, up to `fuel` hops;
returns the node the path finally denotes, or none when the path is
absent or the chain is too long. -/
def resolveNode (fs : Fs) : Nat → FPath → Option Node
  | 0, _ => none
  | fuel + 1, p =>
    match List.lookup p fs with
    | some Node.file => some Node.file
    | some Node.dir => some Node.dir
    | some (Node.symlink t) => resolveNode fs fuel t
    | none => none

/-- The OS symlink-chain bound used by the metadata calls of the model. -/
def linkHops : Nat := 32

/-- `path.exists()`: follows symlinks; a dangling link does not exist. -/
def fsExists (fs : Fs) (p : FPath) : Bool :=
  (resolveNode fs linkHops p).isSome

/-- `path.is_file()`: follows symlinks. -/
def isFileAt (fs : Fs) (p : FPath) : Bool :=
  resolveNode fs linkHops p == some Node.file

/-- `path.is_dir()`: follows symlinks. -/
def isDirAt (fs : Fs) (p : FPath) : Bool :=
  resolveNode fs linkHops p == some Node.dir

/-- utils.rs `is_symlink`: symlink_metadata does not follow the link, and
a metadata error reads as false. -/
def is_symlink (fs : Fs) (p : FPath) : Bool :=
  match List.lookup p fs with
  | some (Node.symlink _) => true
  | _ => false

/-- Drop the entry stored at exactly `p`. -/
def fsErase (fs : Fs) (p : FPath) : Fs :=
  fs.filter (fun e => !(e.1 == p))

/-- Whether `p` has a strict descendant entry in the store. -/
def hasChild (fs : Fs) (p : FPath) : Bool :=
  fs.any (fun e => List.isPrefixOf p e.1 && !(e.1 == p))

/-- The failures the filesystem primitives of this model can report. -/
inductive FsError
  | notFound
  | isADirectory
  | notADirectory
  | dirNotEmpty
deriving DecidableEq

/-- `fs::remove_file`: unlinks a regular file or a link entry itself,
never the link's target. -/
def removeFileFs (fs : Fs) (p : FPath) : Except FsError Fs :=
  match List.lookup p fs with
  | some Node.file => Except.ok (fsErase fs p)
  | some (Node.symlink _) => Except.ok (fsErase fs p)
  | some Node.dir => Except.error FsError.isADirectory
  | none => Except.error FsError.notFound

/-- `fs::remove_dir`: removes an empty directory, or a directory-type link
entry itself without touching the target. -/
def removeDirFs (fs : Fs) (p : FPath) : Except FsError Fs :=
  match List.lookup p fs with
  | some Node.dir =>
    if hasChild fs p then Except.error FsError.dirNotEmpty
    else Except.ok (fsErase fs p)
  | some (Node.symlink _) => Except.ok (fsErase fs p)
  | some Node.file => Except.error FsError.notADirectory
  | none => Except.error FsError.notFound

/-- The bulk `remove_dir_all` used by the fast path: removes a directory
entry together with every entry below it. -/
def removeDirAllFs (fs : Fs) (p : FPath) : Except FsError Fs :=
  match List.lookup p fs with
  | some Node.dir => Except.ok (fs.filter (fun e => !(List.isPrefixOf p e.1)))
  | some (Node.symlink _) => Except.error FsError.notADirectory
  | some Node.file => Except.error FsError.notADirectory
  | none => Except.error FsError.notFound

/-- The retry guards of deleter.rs evaluated on this model's errors: none
of notFound / isADirectory / notADirectory / dirNotEmpty is a sharing or
lock violation (raw 32/33), WouldBlock, PermissionDenied or
ErrorKind::Other, so is_io_error, is_io_or_permission_error and the raw
32/33 test all reject them. -/
def isLockClassFs (_e : FsError) : Bool := false

/-- Deletion outcomes in the concrete model. -/
inductive DelRes
  | ok
  | noSuchFileOrDirectory
  | osError (e : FsError)
  | exhausted
  | fuelOut
deriving DecidableEq

/-- delete_file's retry loop over the concrete filesystem; read-only
clearing has no observable effect here (the model has no read-only bit). -/
def delete_file_fs_loop (cfg : ForceOpsConfig) (fs : Fs) (p : FPath) :
    Nat → Nat → DelRes × Fs
  | _, 0 => (DelRes.exhausted, fs)
  | a, _r + 1 =>
    match removeFileFs fs p with
    | Except.ok fs1 => (DelRes.ok, fs1)
    | Except.error e =>
      if fsExists fs p = false then (DelRes.ok, fs)
      else if isLockClassFs e then
        if a > cfg.max_retries then (DelRes.osError e, fs)
        else delete_file_fs_loop cfg fs p (a + 1) _r
      else (DelRes.osError e, fs)

/-- deleter.rs `delete_file` over the concrete filesystem. -/
def delete_file_fs (cfg : ForceOpsConfig) (fs : Fs) (p : FPath) : DelRes × Fs :=
  delete_file_fs_loop cfg fs p 1 (cfg.max_retries + 1)

/-- delete_empty_directory's retry loop over the concrete filesystem. -/
def delete_empty_directory_fs_loop (cfg : ForceOpsConfig) (fs : Fs) (p : FPath) :
    Nat → Nat → DelRes × Fs
  | _, 0 => (DelRes.exhausted, fs)
  | a, _r + 1 =>
    match removeDirFs fs p with
    | Except.ok fs1 => (DelRes.ok, fs1)
    | Except.error e =>
      if fsExists fs p = false then (DelRes.ok, fs)
      else if isLockClassFs e then
        if a > cfg.max_retries then (DelRes.osError e, fs)
        else delete_empty_directory_fs_loop cfg fs p (a + 1) _r
      else (DelRes.osError e, fs)

/-- deleter.rs `delete_empty_directory` over the concrete filesystem. -/
def delete_empty_directory_fs (cfg : ForceOpsConfig) (fs : Fs) (p : FPath) :
    DelRes × Fs :=
  delete_empty_directory_fs_loop cfg fs p 1 (cfg.max_retries + 1)

/-- The immediate children of `p` present in the store (the read_dir
snapshot taken by delete_files_in_folder). -/
def childrenOf (fs : Fs) (p : FPath) : List FPath :=
  (fs.filter (fun e => List.isPrefixOf p e.1 && e.1.length == p.length + 1)).map
    (fun e => e.1)

mutual

/-- deleter.rs `delete_directory` over the concrete filesystem: a symlink
is handed to delete_empty_directory (the link entry alone is removed);
otherwise the fast-path loop runs.  `fuel` bounds the directory recursion
depth of the model and decreases on every recursive call. -/
def delete_directory_fs (cfg : ForceOpsConfig) (fs : Fs) (p : FPath) :
    Nat → DelRes × Fs
  | 0 => (DelRes.fuelOut, fs)
  | fuel + 1 =>
    if is_symlink fs p then delete_empty_directory_fs cfg fs p
    else delete_directory_fs_loop cfg fs p 1 (cfg.max_retries + 1) fuel

/-- The fast-path loop of delete_directory over the concrete filesystem. -/
def delete_directory_fs_loop (cfg : ForceOpsConfig) (fs : Fs) (p : FPath)
    (a r : Nat) : Nat → DelRes × Fs
  | 0 => (DelRes.fuelOut, fs)
  | fuel + 1 =>
    match r with
    | 0 => (DelRes.exhausted, fs)
    | r1 + 1 =>
      match removeDirAllFs fs p with
      | Except.ok fs1 => (DelRes.ok, fs1)
      | Except.error e =>
        if fsExists fs p = false then (DelRes.ok, fs)
        else if isLockClassFs e then
          if a > cfg.max_retries then (DelRes.osError e, fs)
          else delete_directory_fs_loop cfg fs p (a + 1) r1 fuel
        else if fsExists fs p then delete_directory_slow_fs cfg fs p fuel
        else (DelRes.osError e, fs)

/-- deleter.rs `delete_directory_slow` over the concrete filesystem. -/
def delete_directory_slow_fs (cfg : ForceOpsConfig) (fs : Fs) (p : FPath) :
    Nat → DelRes × Fs
  | 0 => (DelRes.fuelOut, fs)
  | fuel + 1 =>
    match delete_files_in_folder_fs cfg (childrenOf fs p) fs fuel with
    | (DelRes.ok, fs1) => delete_empty_directory_fs cfg fs1 p
    | other => other

/-- deleter.rs `delete_files_in_folder` over the concrete filesystem:
walk the read_dir snapshot, deleting each file via delete_file and each
directory via delete_directory, propagating the first failure. -/
def delete_files_in_folder_fs (cfg : ForceOpsConfig) (cs : List FPath)
    (fs : Fs) : Nat → DelRes × Fs
  | 0 => (DelRes.fuelOut, fs)
  | fuel + 1 =>
    match cs with
    | [] => (DelRes.ok, fs)
    | c :: rest =>
      if isFileAt fs c then
        match delete_file_fs cfg fs c with
        | (DelRes.ok, fs1) => delete_files_in_folder_fs cfg rest fs1 fuel
        | other => other
      else if isDirAt fs c then
        match delete_directory_fs cfg fs c fuel with
        | (DelRes.ok, fs1) => delete_files_in_folder_fs cfg rest fs1 fuel
        | other => other
      else delete_files_in_folder_fs cfg rest fs fuel

end

/-- deleter.rs `delete_file_or_directory`: dispatch on the current
classification of the path (following symlinks); a missing path is an
error unless force is set. -/
def delete_file_or_directory (cfg : ForceOpsConfig) (fs : Fs) (p : FPath)
    (force : Bool) (fuel : Nat) : DelRes × Fs :=
  if isFileAt fs p then delete_file_fs cfg fs p
  else if isDirAt fs p then delete_directory_fs cfg fs p fuel
  else if force = false then (DelRes.noSuchFileOrDirectory, fs)
  else (DelRes.ok, fs)

/-- True on removal-attempt events of delete_file. -/
def isRemoveFileEv : Event → Bool
  | Event.removeFile _ => true
  | _ => false

/-- True on fast-path removal-attempt events of delete_directory. -/
def isFastRemoveEv : Event → Bool
  | Event.fastRemove _ => true
  | _ => false

/-- True on removal-attempt events of delete_empty_directory. -/
def isRemoveDirEv : Event → Bool
  | Event.removeDir _ => true
  | _ => false

/-- True on the read-only-clearing event. -/
def isMarkEv : Event → Bool
  | Event.markNotReadonly => true
  | _ => false

/-- True on failing outcomes. -/
def isErrRes : Res → Bool
  | Res.errMsg _ => true
  | Res.ok => false

/-- True on events that open a removal attempt: the read-only clearing in
delete_file / delete_empty_directory, or a fast-path remove_dir_all call. -/
def isAttemptStart (e : Event) : Bool :=
  isMarkEv e || isFastRemoveEv e

/-- Scans forward from a point in a trace: no removal-attempt event occurs
before the next sleep. -/
def noAttemptBeforeSleep : List Event → Bool
  | [] => true
  | Event.sleep _ :: _ => true
  | Event.removeFile _ :: _ => false
  | Event.fastRemove _ :: _ => false
  | Event.removeDir _ :: _ => false
  | _ :: rest => noAttemptBeforeSleep rest

/-- The ordering the claim asserts: after every termination request, a
sleep occurs before the next removal attempt (terminate, then sleep, then
re-attempt). -/
def sleepSeparatesKillFromAttempt : List Event → Bool
  | [] => true
  | Event.kill _ :: rest =>
    noAttemptBeforeSleep rest && sleepSeparatesKillFromAttempt rest
  | _ :: rest => sleepSeparatesKillFromAttempt rest

/-- Every termination request is immediately preceded by a sleep of `d`
milliseconds. -/
def killedRightAfterSleep (d : Nat) : List Event → Bool
  | Event.sleep d2 :: Event.kill _ :: rest =>
    (d2 == d) && killedRightAfterSleep d rest
  | Event.kill _ :: _ => false
  | _ :: rest => killedRightAfterSleep d rest
  | [] => true

/-- Every termination request is immediately followed by the opening event
of the next removal attempt (no sleep in between). -/
def attemptRightAfterKill : List Event → Bool
  | [] => true
  | [Event.kill _] => false
  | Event.kill _ :: e :: rest => isAttemptStart e && attemptRightAfterKill (e :: rest)
  | _ :: rest => attemptRightAfterKill rest

/-- The property the claim asserts of traces: every removal-attempt event
(removeFile, removeDir or fastRemove) is immediately preceded by a
read-only-clearing event. -/
def marksBeforeAttempts : List Event → Bool
  | [] => true
  | Event.markNotReadonly :: Event.removeFile _ :: rest => marksBeforeAttempts rest
  | Event.markNotReadonly :: Event.removeDir _ :: rest => marksBeforeAttempts rest
  | Event.markNotReadonly :: Event.fastRemove _ :: rest => marksBeforeAttempts rest
  | Event.removeFile _ :: _ => false
  | Event.fastRemove _ :: _ => false
  | Event.removeDir _ :: _ => false
  | _ :: rest => marksBeforeAttempts rest

theorem lock_raw_is_io_error (e : IoErr) (h : is_lock_error_raw e = true) :
    is_io_error e = true := by
  simp only [is_lock_error_raw, Bool.or_eq_true] at h
  simp only [is_io_error, Bool.or_eq_true]
  rcases h with h | h
  · exact Or.inl (Or.inl h)
  · exact Or.inl (Or.inr h)

theorem lock_raw_is_io_or_permission (e : IoErr) (h : is_lock_error_raw e = true) :
    is_io_or_permission_error e = true := by
  simp only [is_io_or_permission_error, Bool.or_eq_true]
  exact Or.inr (lock_raw_is_io_error e h)

theorem delete_file_loop_exhaust (cfg : ForceOpsConfig) (env : AttemptEnv)
    (path : String)
    (hfail : ∀ a, ∃ e, env.remove a = some e ∧ is_lock_error_raw e = true)
    (hex : ∀ a, env.exists_after a = true) :
    ∀ r a, 1 ≤ r → a + r = cfg.max_retries + 2 →
      isErrRes (delete_file_loop cfg env path a r).1 = true ∧
      List.countP isRemoveFileEv (delete_file_loop cfg env path a r).2 = r := by
  intro r
  induction r with
  | zero => intro a h1 _; exact absurd h1 (by omega)
  | succ r ih =>
    intro a _ hsum
    obtain ⟨e, he, hlock⟩ := hfail a
    have hperm := lock_raw_is_io_or_permission e hlock
    by_cases hlast : a > cfg.max_retries
    · have hr0 : r = 0 := by omega
      subst hr0
      simp [delete_file_loop, he, hex a, hperm, kill_processes_and_log_info,
        hlast, isErrRes, List.countP_cons, List.countP_nil, isRemoveFileEv]
    · have hr1 : 1 ≤ r := by omega
      have hsum2 : (a + 1) + r = cfg.max_retries + 2 := by omega
      obtain ⟨hih1, hih2⟩ := ih (a + 1) hr1 hsum2
      constructor
      · simpa [delete_file_loop, he, hex a, hperm, kill_processes_and_log_info,
          hlast] using hih1
      · simp [delete_file_loop, he, hex a, hperm, kill_processes_and_log_info,
          hlast, List.countP_append, List.countP_cons, List.countP_nil,
          isRemoveFileEv] at hih2 ⊢
        omega

theorem delete_directory_loop_exhaust (cfg : ForceOpsConfig) (env : DirEnv)
    (path : String)
    (hfail : ∀ a, ∃ e, env.fast a = some e ∧ is_lock_error_raw e = true)
    (hex : ∀ a, env.exists_after a = true) :
    ∀ r a, 1 ≤ r → a + r = cfg.max_retries + 2 →
      isErrRes (delete_directory_loop cfg env path a r).1 = true ∧
      List.countP isFastRemoveEv (delete_directory_loop cfg env path a r).2 = r := by
  intro r
  induction r with
  | zero => intro a h1 _; exact absurd h1 (by omega)
  | succ r ih =>
    intro a _ hsum
    obtain ⟨e, he, hlock⟩ := hfail a
    by_cases hlast : a > cfg.max_retries
    · have hr0 : r = 0 := by omega
      subst hr0
      simp [delete_directory_loop, he, hex a, hlock, kill_processes_and_log_info,
        hlast, isErrRes, List.countP_cons, List.countP_nil, isFastRemoveEv]
    · have hr1 : 1 ≤ r := by omega
      have hsum2 : (a + 1) + r = cfg.max_retries + 2 := by omega
      obtain ⟨hih1, hih2⟩ := ih (a + 1) hr1 hsum2
      constructor
      · simpa [delete_directory_loop, he, hex a, hlock, kill_processes_and_log_info,
          hlast] using hih1
      · simp [delete_directory_loop, he, hex a, hlock, kill_processes_and_log_info,
          hlast, List.countP_append, List.countP_cons, List.countP_nil,
          isFastRemoveEv] at hih2 ⊢
        omega

/-- Claim C1: with max_retries = n and a target whose removal permanently
fails with a lock-class error while the path continues to exist, both
delete_file and the fast-path loop of delete_directory perform exactly
n + 1 underlying removal attempts before reporting failure. -/
theorem c1_retry_budget (cfg : ForceOpsConfig) (envf : AttemptEnv) (envd : DirEnv)
    (path : String)
    (hffail : ∀ a, ∃ e, envf.remove a = some e ∧ is_lock_error_raw e = true)
    (hfex : ∀ a, envf.exists_after a = true)
    (hdfail : ∀ a, ∃ e, envd.fast a = some e ∧ is_lock_error_raw e = true)
    (hdex : ∀ a, envd.exists_after a = true)
    (hnl : envd.is_symlink = false) :
    (isErrRes (delete_file cfg envf path).1 = true ∧
      List.countP isRemoveFileEv (delete_file cfg envf path).2 =
        cfg.max_retries + 1) ∧
    (isErrRes (delete_directory cfg envd path).1 = true ∧
      List.countP isFastRemoveEv (delete_directory cfg envd path).2 =
        cfg.max_retries + 1) := by
  constructor
  · exact delete_file_loop_exhaust cfg envf path hffail hfex
      (cfg.max_retries + 1) 1 (by omega) (by omega)
  · have h := delete_directory_loop_exhaust cfg envd path hdfail hdex
      (cfg.max_retries + 1) 1 (by omega) (by omega)
    simpa [delete_directory, hnl] using h

theorem delete_file_loop_vanished (cfg : ForceOpsConfig) (env : AttemptEnv)
    (path : String) (b : Nat) (hsome : (env.remove b).isSome = true)
    (hgone : env.exists_after b = false) :
    ∀ r a, Event.removeFile b ∈ (delete_file_loop cfg env path a r).2 →
      (delete_file_loop cfg env path a r).1 = Res.ok := by
  intro r
  induction r with
  | zero => intro a hmem; simp [delete_file_loop] at hmem
  | succ r ih =>
    intro a hmem
    by_cases hba : b = a
    · subst hba
      cases he : env.remove b with
      | none => rw [he] at hsome; simp at hsome
      | some e => simp [delete_file_loop, he, hgone]
    · cases he : env.remove a with
      | none =>
        simp [delete_file_loop, he] at hmem
        exact absurd hmem hba
      | some e =>
        cases hex : env.exists_after a with
        | false => simp [delete_file_loop, he, hex]
        | true =>
          cases hio : is_io_or_permission_error e with
          | false =>
            simp [delete_file_loop, he, hex, hio] at hmem
            exact absurd hmem hba
          | true =>
            by_cases hlast : a > cfg.max_retries
            · simp [delete_file_loop, he, hex, hio,
                kill_processes_and_log_info, hlast] at hmem
              exact absurd hmem hba
            · have hrec := ih (a + 1)
              simp [delete_file_loop, he, hex, hio,
                kill_processes_and_log_info, hlast] at hmem ⊢
              rcases hmem with hmem | hmem
              · exact absurd hmem hba
              · exact hrec hmem

theorem delete_empty_directory_loop_vanished (cfg : ForceOpsConfig)
    (env : AttemptEnv) (path : String) (b : Nat)
    (hsome : (env.remove b).isSome = true) (hgone : env.exists_after b = false) :
    ∀ r a, Event.removeDir b ∈ (delete_empty_directory_loop cfg env path a r).2 →
      (delete_empty_directory_loop cfg env path a r).1 = Res.ok := by
  intro r
  induction r with
  | zero => intro a hmem; simp [delete_empty_directory_loop] at hmem
  | succ r ih =>
    intro a hmem
    by_cases hba : b = a
    · subst hba
      cases he : env.remove b with
      | none => rw [he] at hsome; simp at hsome
      | some e => simp [delete_empty_directory_loop, he, hgone]
    · cases he : env.remove a with
      | none =>
        simp [delete_empty_directory_loop, he] at hmem
        exact absurd hmem hba
      | some e =>
        cases hex : env.exists_after a with
        | false => simp [delete_empty_directory_loop, he, hex]
        | true =>
          cases hio : is_io_error e with
          | false =>
            simp [delete_empty_directory_loop, he, hex, hio] at hmem
            exact absurd hmem hba
          | true =>
            by_cases hlast : a > cfg.max_retries
            · simp [delete_empty_directory_loop, he, hex, hio,
                kill_processes_and_log_info, hlast] at hmem
              exact absurd hmem hba
            · have hrec := ih (a + 1)
              simp [delete_empty_directory_loop, he, hex, hio,
                kill_processes_and_log_info, hlast] at hmem ⊢
              rcases hmem with hmem | hmem
              · exact absurd hmem hba
              · exact hrec hmem

theorem delete_directory_loop_vanished (cfg : ForceOpsConfig) (env : DirEnv)
    (path : String) (b : Nat) (hsome : (env.fast b).isSome = true)
    (hgone : env.exists_after b = false) :
    ∀ r a, Event.fastRemove b ∈ (delete_directory_loop cfg env path a r).2 →
      (delete_directory_loop cfg env path a r).1 = Res.ok := by
  intro r
  induction r with
  | zero => intro a hmem; simp [delete_directory_loop] at hmem
  | succ r ih =>
    intro a hmem
    by_cases hba : b = a
    · subst hba
      cases he : env.fast b with
      | none => rw [he] at hsome; simp at hsome
      | some e => simp [delete_directory_loop, he, hgone]
    · cases he : env.fast a with
      | none =>
        simp [delete_directory_loop, he] at hmem
        exact absurd hmem hba
      | some e =>
        cases hex : env.exists_after a with
        | false => simp [delete_directory_loop, he, hex]
        | true =>
          cases hlock : is_lock_error_raw e with
          | false =>
            cases hre : env.exists_recheck a with
            | false =>
              simp [delete_directory_loop, he, hex, hlock, hre] at hmem
              exact absurd hmem hba
            | true =>
              simp [delete_directory_loop, he, hex, hlock, hre] at hmem
              exact absurd hmem hba
          | true =>
            by_cases hlast : a > cfg.max_retries
            · simp [delete_directory_loop, he, hex, hlock,
                kill_processes_and_log_info, hlast] at hmem
              exact absurd hmem hba
            · have hrec := ih (a + 1)
              simp [delete_directory_loop, he, hex, hlock,
                kill_processes_and_log_info, hlast] at hmem ⊢
              rcases hmem with hmem | hmem
              · exact absurd hmem hba
              · exact hrec hmem

/-- Claim C6: for every removal attempt (file, directory fast path, or
empty-directory removal) whose underlying remove call fails while the
target no longer exists at the subsequent re-check, the operation returns
Success, never an error. -/
theorem c6_vanished_is_success (cfg : ForceOpsConfig) (envf envl : AttemptEnv)
    (envd : DirEnv) (path : String) (b : Nat) :
    ((env_rm : (envf.remove b).isSome = true) → envf.exists_after b = false →
      Event.removeFile b ∈ (delete_file cfg envf path).2 →
      (delete_file cfg envf path).1 = Res.ok) ∧
    ((env_rm : (envd.fast b).isSome = true) → envd.exists_after b = false →
      envd.is_symlink = false →
      Event.fastRemove b ∈ (delete_directory cfg envd path).2 →
      (delete_directory cfg envd path).1 = Res.ok) ∧
    ((env_rm : (envl.remove b).isSome = true) → envl.exists_after b = false →
      Event.removeDir b ∈ (delete_empty_directory cfg envl path).2 →
      (delete_empty_directory cfg envl path).1 = Res.ok) := by
  refine ⟨?_, ?_, ?_⟩
  · intro h1 h2 hmem
    exact delete_file_loop_vanished cfg envf path b h1 h2 (cfg.max_retries + 1) 1 hmem
  · intro h1 h2 hnl hmem
    rw [delete_directory, hnl] at hmem ⊢
    simp only [Bool.false_eq_true, if_false] at hmem ⊢
    exact delete_directory_loop_vanished cfg envd path b h1 h2
      (cfg.max_retries + 1) 1 hmem
  · intro h1 h2 hmem
    exact delete_empty_directory_loop_vanished cfg envl path b h1 h2
      (cfg.max_retries + 1) 1 hmem

/-- Claim C2, counterexample: with max_retries = 0 and a file permanently
locked (sharing violation 32 on every attempt, path still present), the
error delete_file returns carries the underlying OS message only — it
neither contains "after 0 retries" nor names the path.  The claimed
"exceeded retries" summary (exceeded_file_msg) is not what is returned. -/
theorem c2_after_retries_cex :
    (delete_file (⟨0, 50, true⟩ : ForceOpsConfig)
        (⟨fun _ => some (⟨EKind.other, some 32,
            "The process cannot access the file because it is being used by another process. (os error 32)"⟩ : IoErr),
          fun _ => true, fun _ => []⟩ : AttemptEnv)
        ("C:\\locked.txt")).1 =
      Res.errMsg
        ("The process cannot access the file because it is being used by another process. (os error 32)") ∧
    strContains
      ("The process cannot access the file because it is being used by another process. (os error 32)")
      ("after 0 retries") = false ∧
    strContains
      ("The process cannot access the file because it is being used by another process. (os error 32)")
      ("C:\\locked.txt") = false := by
  refine ⟨by decide, by decide, by decide⟩

/-- Claim C2, amended: with max_retries = 0 and a first attempt that fails
with a retry-class error while the file still exists, delete_file fails
with exactly the underlying OS error message (no path, no retry-count
summary); the "Failed to delete file ... after 0 retries" message after
the loop is never the returned error on this path. -/
theorem c2_after_retries_amended (env : AttemptEnv) (path : String) (e : IoErr)
    (d : Nat) (b : Bool) (hrm : env.remove 1 = some e)
    (hio : is_io_or_permission_error e = true) (hex : env.exists_after 1 = true) :
    delete_file (⟨0, d, b⟩ : ForceOpsConfig) env path =
      (Res.errMsg e.msg, [Event.markNotReadonly, Event.removeFile 1]) := by
  simp [delete_file, delete_file_loop, hrm, hio, hex, kill_processes_and_log_info]

theorem c2_after_retries_witness :
    delete_file (⟨0, 50, true⟩ : ForceOpsConfig)
        (⟨fun _ => some (⟨EKind.other, some 32, "os error 32"⟩ : IoErr),
          fun _ => true, fun _ => []⟩ : AttemptEnv) ("t.txt") =
      (Res.errMsg ("os error 32"), [Event.markNotReadonly, Event.removeFile 1]) :=
  c2_after_retries_amended
    (⟨fun _ => some (⟨EKind.other, some 32, "os error 32"⟩ : IoErr),
      fun _ => true, fun _ => []⟩ : AttemptEnv)
    ("t.txt") (⟨EKind.other, some 32, "os error 32"⟩ : IoErr) 50 true
    rfl (by decide) rfl

/-- Claim C3, counterexample: a PermissionDenied (access denied) failure of
delete_file's first attempt does not propagate immediately — it triggers
the full inspection/sleep/kill retry cycle and a second attempt, because
delete_file's retry guard is is_io_or_permission_error. -/
theorem c3_permission_not_retried_cex :
    delete_file (⟨1, 50, true⟩ : ForceOpsConfig)
        (⟨fun a => if a == 1 then
            some (⟨EKind.permissionDenied, some 5, "Access is denied. (os error 5)"⟩ : IoErr)
          else none,
          fun _ => true, fun _ => [4242]⟩ : AttemptEnv) ("C:\\protected.txt") =
      (Res.ok,
        [Event.markNotReadonly, Event.removeFile 1, Event.sleep 50,
          Event.kill [4242], Event.markNotReadonly, Event.removeFile 2]) := by
  decide

theorem delete_file_loop_head (cfg : ForceOpsConfig) (env : AttemptEnv)
    (path : String) (a r : Nat) :
    ∃ tail, (delete_file_loop cfg env path a (r + 1)).2 =
      Event.markNotReadonly :: Event.removeFile a :: tail := by
  cases he : env.remove a with
  | none => exact ⟨[], by simp [delete_file_loop, he]⟩
  | some e =>
    cases hex : env.exists_after a with
    | false => exact ⟨[], by simp [delete_file_loop, he, hex]⟩
    | true =>
      cases hio : is_io_or_permission_error e with
      | false => exact ⟨[], by simp [delete_file_loop, he, hex, hio]⟩
      | true =>
        by_cases hlast : a > cfg.max_retries
        · exact ⟨[], by simp [delete_file_loop, he, hex, hio,
            kill_processes_and_log_info, hlast]⟩
        · exact ⟨Event.sleep cfg.retry_delay_ms :: Event.kill (env.procs a) ::
            (delete_file_loop cfg env path (a + 1) r).2,
            by simp [delete_file_loop, he, hex, hio,
              kill_processes_and_log_info, hlast]⟩

/-- Claim C3, amended: in delete_file only failures outside
is_io_or_permission_error propagate immediately; a PermissionDenied
failure is inside that guard, so it runs the sleep/kill retry cycle and a
second attempt whenever the budget allows.  In delete_empty_directory the
guard is is_io_error, so there an access-denied failure (raw code 5, kind
PermissionDenied) does propagate immediately with no retry cycle. -/
theorem c3_permission_retried_amended (cfg : ForceOpsConfig)
    (envf envl : AttemptEnv) (path : String) (e el : IoErr) :
    (envf.remove 1 = some e → envf.exists_after 1 = true →
      is_io_or_permission_error e = false →
      delete_file cfg envf path =
        (Res.errMsg e.msg, [Event.markNotReadonly, Event.removeFile 1])) ∧
    (envf.remove 1 = some e → envf.exists_after 1 = true →
      e.kind = EKind.permissionDenied → 1 ≤ cfg.max_retries →
      Event.sleep cfg.retry_delay_ms ∈ (delete_file cfg envf path).2 ∧
      Event.removeFile 2 ∈ (delete_file cfg envf path).2) ∧
    (envl.remove 1 = some el → envl.exists_after 1 = true →
      is_io_error el = false →
      delete_empty_directory cfg envl path =
        (Res.errMsg el.msg, [Event.markNotReadonly, Event.removeDir 1])) := by
  refine ⟨?_, ?_, ?_⟩
  · intro hrm hex hio
    simp [delete_file, delete_file_loop, hrm, hex, hio]
  · intro hrm hex hkind hbudget
    have hio : is_io_or_permission_error e = true := by
      simp [is_io_or_permission_error, hkind]
    have hnotlast : ¬ 1 > cfg.max_retries := by omega
    obtain ⟨r1, hr1⟩ : ∃ r1, cfg.max_retries = r1 + 1 :=
      ⟨cfg.max_retries - 1, by omega⟩
    obtain ⟨tail, htail⟩ := delete_file_loop_head cfg envf path 2 r1
    rw [← hr1] at htail
    constructor
    · simp [delete_file, delete_file_loop, hrm, hex, hio,
        kill_processes_and_log_info, hnotlast]
    · simp [delete_file, delete_file_loop, hrm, hex, hio,
        kill_processes_and_log_info, hnotlast, htail]
  · intro hrm hex hio
    simp [delete_empty_directory, delete_empty_directory_loop, hrm, hex, hio]

theorem c3_permission_retried_witness :
    Event.sleep 50 ∈
      (delete_file (⟨1, 50, true⟩ : ForceOpsConfig)
        (⟨fun _ => some (⟨EKind.permissionDenied, some 5, "Access is denied."⟩ : IoErr),
          fun _ => true, fun _ => []⟩ : AttemptEnv) ("w.txt")).2 :=
  ((c3_permission_retried_amended (⟨1, 50, true⟩ : ForceOpsConfig)
    (⟨fun _ => some (⟨EKind.permissionDenied, some 5, "Access is denied."⟩ : IoErr),
      fun _ => true, fun _ => []⟩ : AttemptEnv)
    (⟨fun _ => some (⟨EKind.permissionDenied, some 5, "Access is denied."⟩ : IoErr),
      fun _ => true, fun _ => []⟩ : AttemptEnv)
    ("w.txt") (⟨EKind.permissionDenied, some 5, "Access is denied."⟩ : IoErr)
    (⟨EKind.permissionDenied, some 5, "Access is denied."⟩ : IoErr)).2.1
    rfl rfl rfl (by decide)).1

theorem kras_nil (d : Nat) : killedRightAfterSleep d [] = true := rfl

theorem kras_mark (d : Nat) (l : List Event) :
    killedRightAfterSleep d (Event.markNotReadonly :: l) =
      killedRightAfterSleep d l := rfl

theorem kras_removeFile (d a : Nat) (l : List Event) :
    killedRightAfterSleep d (Event.removeFile a :: l) =
      killedRightAfterSleep d l := rfl

theorem kras_fastRemove (d a : Nat) (l : List Event) :
    killedRightAfterSleep d (Event.fastRemove a :: l) =
      killedRightAfterSleep d l := rfl

theorem kras_removeDir (d a : Nat) (l : List Event) :
    killedRightAfterSleep d (Event.removeDir a :: l) =
      killedRightAfterSleep d l := rfl

theorem kras_sleep_kill (d d2 : Nat) (ps : List Nat) (l : List Event) :
    killedRightAfterSleep d (Event.sleep d2 :: Event.kill ps :: l) =
      ((d2 == d) && killedRightAfterSleep d l) := rfl

theorem arak_nil : attemptRightAfterKill [] = true := rfl

theorem arak_mark (l : List Event) :
    attemptRightAfterKill (Event.markNotReadonly :: l) =
      attemptRightAfterKill l := rfl

theorem arak_removeFile (a : Nat) (l : List Event) :
    attemptRightAfterKill (Event.removeFile a :: l) =
      attemptRightAfterKill l := rfl

theorem arak_fastRemove (a : Nat) (l : List Event) :
    attemptRightAfterKill (Event.fastRemove a :: l) =
      attemptRightAfterKill l := rfl

theorem arak_removeDir (a : Nat) (l : List Event) :
    attemptRightAfterKill (Event.removeDir a :: l) =
      attemptRightAfterKill l := rfl

theorem arak_sleep (d : Nat) (l : List Event) :
    attemptRightAfterKill (Event.sleep d :: l) =
      attemptRightAfterKill l := rfl

theorem arak_kill_cons (ps : List Nat) (e : Event) (l : List Event) :
    attemptRightAfterKill (Event.kill ps :: e :: l) =
      (isAttemptStart e && attemptRightAfterKill (e :: l)) := rfl

theorem delete_file_loop_kras (cfg : ForceOpsConfig) (env : AttemptEnv)
    (path : String) :
    ∀ r a, killedRightAfterSleep cfg.retry_delay_ms
      (delete_file_loop cfg env path a r).2 = true := by
  intro r
  induction r with
  | zero => intro a; rfl
  | succ r ih =>
    intro a
    cases he : env.remove a with
    | none => simp [delete_file_loop, he, kras_mark, kras_removeFile, kras_nil]
    | some e =>
      cases hex : env.exists_after a with
      | false =>
        simp [delete_file_loop, he, hex, kras_mark, kras_removeFile, kras_nil]
      | true =>
        cases hio : is_io_or_permission_error e with
        | false =>
          simp [delete_file_loop, he, hex, hio, kras_mark, kras_removeFile,
            kras_nil]
        | true =>
          by_cases hlast : a > cfg.max_retries
          · simp [delete_file_loop, he, hex, hio, kill_processes_and_log_info,
              hlast, kras_mark, kras_removeFile, kras_nil]
          · simp [delete_file_loop, he, hex, hio, kill_processes_and_log_info,
              hlast, kras_mark, kras_removeFile, kras_sleep_kill, ih (a + 1)]

theorem delete_file_loop_arak (cfg : ForceOpsConfig) (env : AttemptEnv)
    (path : String) :
    ∀ r a, a + r = cfg.max_retries + 2 →
      attemptRightAfterKill (delete_file_loop cfg env path a r).2 = true := by
  intro r
  induction r with
  | zero => intro a _; rfl
  | succ r ih =>
    intro a hsum
    cases he : env.remove a with
    | none => simp [delete_file_loop, he, arak_mark, arak_removeFile, arak_nil]
    | some e =>
      cases hex : env.exists_after a with
      | false =>
        simp [delete_file_loop, he, hex, arak_mark, arak_removeFile, arak_nil]
      | true =>
        cases hio : is_io_or_permission_error e with
        | false =>
          simp [delete_file_loop, he, hex, hio, arak_mark, arak_removeFile,
            arak_nil]
        | true =>
          by_cases hlast : a > cfg.max_retries
          · simp [delete_file_loop, he, hex, hio, kill_processes_and_log_info,
              hlast, arak_mark, arak_removeFile, arak_nil]
          · obtain ⟨r1, hr1⟩ : ∃ r1, r = r1 + 1 := ⟨r - 1, by omega⟩
            obtain ⟨tail, htail⟩ :=
              delete_file_loop_head cfg env path (a + 1) r1
            rw [← hr1] at htail
            have hrec := ih (a + 1) (by omega)
            rw [htail] at hrec
            simp [delete_file_loop, he, hex, hio, kill_processes_and_log_info,
              hlast, arak_mark, arak_removeFile, arak_sleep, htail,
              arak_kill_cons, isAttemptStart, isMarkEv]
            simpa [arak_mark] using hrec

/-- Claim C4, counterexample: with max_retries = 1, a sharing-violation
failure on the first attempt and success on the second, delete_file's
trace is mark, attempt 1, sleep, kill, mark, attempt 2 — the termination
requests come after the sleep, and the second attempt starts with no
sleep after them, refuting terminate-then-sleep-then-re-attempt. -/
theorem c4_kill_then_sleep_cex :
    delete_file (⟨1, 50, true⟩ : ForceOpsConfig)
        (⟨fun a => if a == 1 then
            some (⟨EKind.other, some 32, "os error 32"⟩ : IoErr) else none,
          fun _ => true, fun _ => [7]⟩ : AttemptEnv) ("C:\\busy.txt") =
      (Res.ok,
        [Event.markNotReadonly, Event.removeFile 1, Event.sleep 50,
          Event.kill [7], Event.markNotReadonly, Event.removeFile 2]) ∧
    sleepSeparatesKillFromAttempt
      [Event.markNotReadonly, Event.removeFile 1, Event.sleep 50,
        Event.kill [7], Event.markNotReadonly, Event.removeFile 2] = false := by
  refine ⟨by decide, by decide⟩

theorem delete_empty_directory_loop_head (cfg : ForceOpsConfig)
    (env : AttemptEnv) (path : String) (a r : Nat) :
    ∃ tail, (delete_empty_directory_loop cfg env path a (r + 1)).2 =
      Event.markNotReadonly :: Event.removeDir a :: tail := by
  cases he : env.remove a with
  | none => exact ⟨[], by simp [delete_empty_directory_loop, he]⟩
  | some e =>
    cases hex : env.exists_after a with
    | false => exact ⟨[], by simp [delete_empty_directory_loop, he, hex]⟩
    | true =>
      cases hio : is_io_error e with
      | false => exact ⟨[], by simp [delete_empty_directory_loop, he, hex, hio]⟩
      | true =>
        by_cases hlast : a > cfg.max_retries
        · exact ⟨[], by simp [delete_empty_directory_loop, he, hex, hio,
            kill_processes_and_log_info, hlast]⟩
        · exact ⟨Event.sleep cfg.retry_delay_ms :: Event.kill (env.procs a) ::
            (delete_empty_directory_loop cfg env path (a + 1) r).2,
            by simp [delete_empty_directory_loop, he, hex, hio,
              kill_processes_and_log_info, hlast]⟩

theorem delete_directory_loop_head (cfg : ForceOpsConfig) (env : DirEnv)
    (path : String) (a r : Nat) :
    ∃ tail, (delete_directory_loop cfg env path a (r + 1)).2 =
      Event.fastRemove a :: tail := by
  cases he : env.fast a with
  | none => exact ⟨[], by simp [delete_directory_loop, he]⟩
  | some e =>
    cases hex : env.exists_after a with
    | false => exact ⟨[], by simp [delete_directory_loop, he, hex]⟩
    | true =>
      cases hlock : is_lock_error_raw e with
      | false =>
        cases hre : env.exists_recheck a with
        | false => exact ⟨[], by simp [delete_directory_loop, he, hex, hlock, hre]⟩
        | true => exact ⟨[], by simp [delete_directory_loop, he, hex, hlock, hre]⟩
      | true =>
        by_cases hlast : a > cfg.max_retries
        · exact ⟨[], by simp [delete_directory_loop, he, hex, hlock,
            kill_processes_and_log_info, hlast]⟩
        · exact ⟨Event.sleep cfg.retry_delay_ms :: Event.kill (env.procs a) ::
            (delete_directory_loop cfg env path (a + 1) r).2,
            by simp [delete_directory_loop, he, hex, hlock,
              kill_processes_and_log_info, hlast]⟩

theorem delete_empty_directory_loop_kras (cfg : ForceOpsConfig)
    (env : AttemptEnv) (path : String) :
    ∀ r a, killedRightAfterSleep cfg.retry_delay_ms
      (delete_empty_directory_loop cfg env path a r).2 = true := by
  intro r
  induction r with
  | zero => intro a; rfl
  | succ r ih =>
    intro a
    cases he : env.remove a with
    | none =>
      simp [delete_empty_directory_loop, he, kras_mark, kras_removeDir, kras_nil]
    | some e =>
      cases hex : env.exists_after a with
      | false =>
        simp [delete_empty_directory_loop, he, hex, kras_mark, kras_removeDir,
          kras_nil]
      | true =>
        cases hio : is_io_error e with
        | false =>
          simp [delete_empty_directory_loop, he, hex, hio, kras_mark,
            kras_removeDir, kras_nil]
        | true =>
          by_cases hlast : a > cfg.max_retries
          · simp [delete_empty_directory_loop, he, hex, hio,
              kill_processes_and_log_info, hlast, kras_mark, kras_removeDir,
              kras_nil]
          · simp [delete_empty_directory_loop, he, hex, hio,
              kill_processes_and_log_info, hlast, kras_mark, kras_removeDir,
              kras_sleep_kill, ih (a + 1)]

theorem delete_empty_directory_loop_arak (cfg : ForceOpsConfig)
    (env : AttemptEnv) (path : String) :
    ∀ r a, a + r = cfg.max_retries + 2 →
      attemptRightAfterKill (delete_empty_directory_loop cfg env path a r).2 =
        true := by
  intro r
  induction r with
  | zero => intro a _; rfl
  | succ r ih =>
    intro a hsum
    cases he : env.remove a with
    | none =>
      simp [delete_empty_directory_loop, he, arak_mark, arak_removeDir, arak_nil]
    | some e =>
      cases hex : env.exists_after a with
      | false =>
        simp [delete_empty_directory_loop, he, hex, arak_mark, arak_removeDir,
          arak_nil]
      | true =>
        cases hio : is_io_error e with
        | false =>
          simp [delete_empty_directory_loop, he, hex, hio, arak_mark,
            arak_removeDir, arak_nil]
        | true =>
          by_cases hlast : a > cfg.max_retries
          · simp [delete_empty_directory_loop, he, hex, hio,
              kill_processes_and_log_info, hlast, arak_mark, arak_removeDir,
              arak_nil]
          · obtain ⟨r1, hr1⟩ : ∃ r1, r = r1 + 1 := ⟨r - 1, by omega⟩
            obtain ⟨tail, htail⟩ :=
              delete_empty_directory_loop_head cfg env path (a + 1) r1
            rw [← hr1] at htail
            have hrec := ih (a + 1) (by omega)
            rw [htail] at hrec
            simp [delete_empty_directory_loop, he, hex, hio,
              kill_processes_and_log_info, hlast, arak_mark, arak_removeDir,
              arak_sleep, htail, arak_kill_cons, isAttemptStart, isMarkEv]
            simpa [arak_mark] using hrec

theorem delete_directory_loop_kras (cfg : ForceOpsConfig) (env : DirEnv)
    (path : String) :
    ∀ r a, killedRightAfterSleep cfg.retry_delay_ms
      (delete_directory_loop cfg env path a r).2 = true := by
  intro r
  induction r with
  | zero => intro a; rfl
  | succ r ih =>
    intro a
    cases he : env.fast a with
    | none => simp [delete_directory_loop, he, kras_fastRemove, kras_nil]
    | some e =>
      cases hex : env.exists_after a with
      | false => simp [delete_directory_loop, he, hex, kras_fastRemove, kras_nil]
      | true =>
        cases hlock : is_lock_error_raw e with
        | false =>
          cases hre : env.exists_recheck a with
          | false =>
            simp [delete_directory_loop, he, hex, hlock, hre, kras_fastRemove,
              kras_nil]
          | true =>
            simp [delete_directory_loop, he, hex, hlock, hre, kras_fastRemove,
              kras_nil]
        | true =>
          by_cases hlast : a > cfg.max_retries
          · simp [delete_directory_loop, he, hex, hlock,
              kill_processes_and_log_info, hlast, kras_fastRemove, kras_nil]
          · simp [delete_directory_loop, he, hex, hlock,
              kill_processes_and_log_info, hlast, kras_fastRemove,
              kras_sleep_kill, ih (a + 1)]

theorem delete_directory_loop_arak (cfg : ForceOpsConfig) (env : DirEnv)
    (path : String) :
    ∀ r a, a + r = cfg.max_retries + 2 →
      attemptRightAfterKill (delete_directory_loop cfg env path a r).2 = true := by
  intro r
  induction r with
  | zero => intro a _; rfl
  | succ r ih =>
    intro a hsum
    cases he : env.fast a with
    | none => simp [delete_directory_loop, he, arak_fastRemove, arak_nil]
    | some e =>
      cases hex : env.exists_after a with
      | false => simp [delete_directory_loop, he, hex, arak_fastRemove, arak_nil]
      | true =>
        cases hlock : is_lock_error_raw e with
        | false =>
          cases hre : env.exists_recheck a with
          | false =>
            simp [delete_directory_loop, he, hex, hlock, hre, arak_fastRemove,
              arak_nil]
          | true =>
            simp [delete_directory_loop, he, hex, hlock, hre, arak_fastRemove,
              arak_nil]
        | true =>
          by_cases hlast : a > cfg.max_retries
          · simp [delete_directory_loop, he, hex, hlock,
              kill_processes_and_log_info, hlast, arak_fastRemove, arak_nil]
          · obtain ⟨r1, hr1⟩ : ∃ r1, r = r1 + 1 := ⟨r - 1, by omega⟩
            obtain ⟨tail, htail⟩ :=
              delete_directory_loop_head cfg env path (a + 1) r1
            rw [← hr1] at htail
            have hrec := ih (a + 1) (by omega)
            rw [htail] at hrec
            simp [delete_directory_loop, he, hex, hlock,
              kill_processes_and_log_info, hlast, arak_fastRemove, arak_sleep,
              htail, arak_kill_cons, isAttemptStart, isFastRemoveEv]
            simpa [arak_fastRemove] using hrec

/-- Claim C4, amended: within one retry cycle the engine sleeps for
retry_delay first, then issues the termination requests, and the next
removal attempt begins immediately after those requests — in every trace
of delete_file, delete_directory and delete_empty_directory, each kill is
immediately preceded by a sleep of retry_delay_ms and immediately followed
by the opening event of the next attempt. -/
theorem c4_sleep_then_kill_then_attempt (cfg : ForceOpsConfig)
    (envf envl : AttemptEnv) (envd : DirEnv) (path : String) :
    (killedRightAfterSleep cfg.retry_delay_ms (delete_file cfg envf path).2 =
        true ∧
      attemptRightAfterKill (delete_file cfg envf path).2 = true) ∧
    (killedRightAfterSleep cfg.retry_delay_ms
        (delete_directory cfg envd path).2 = true ∧
      attemptRightAfterKill (delete_directory cfg envd path).2 = true) ∧
    (killedRightAfterSleep cfg.retry_delay_ms
        (delete_empty_directory cfg envl path).2 = true ∧
      attemptRightAfterKill (delete_empty_directory cfg envl path).2 = true) := by
  refine ⟨⟨?_, ?_⟩, ⟨?_, ?_⟩, ⟨?_, ?_⟩⟩
  · exact delete_file_loop_kras cfg envf path (cfg.max_retries + 1) 1
  · exact delete_file_loop_arak cfg envf path (cfg.max_retries + 1) 1 (by omega)
  · cases hs : envd.is_symlink with
    | true =>
      rw [delete_directory, hs]
      simp only [if_true]
      exact delete_empty_directory_loop_kras cfg envd.empty_env path
        (cfg.max_retries + 1) 1
    | false =>
      rw [delete_directory, hs]
      simp only [Bool.false_eq_true, if_false]
      exact delete_directory_loop_kras cfg envd path (cfg.max_retries + 1) 1
  · cases hs : envd.is_symlink with
    | true =>
      rw [delete_directory, hs]
      simp only [if_true]
      exact delete_empty_directory_loop_arak cfg envd.empty_env path
        (cfg.max_retries + 1) 1 (by omega)
    | false =>
      rw [delete_directory, hs]
      simp only [Bool.false_eq_true, if_false]
      exact delete_directory_loop_arak cfg envd path (cfg.max_retries + 1) 1
        (by omega)
  · exact delete_empty_directory_loop_kras cfg envl path (cfg.max_retries + 1) 1
  · exact delete_empty_directory_loop_arak cfg envl path (cfg.max_retries + 1) 1
      (by omega)

theorem mba_nil : marksBeforeAttempts [] = true := rfl

theorem mba_mark_removeFile (a : Nat) (l : List Event) :
    marksBeforeAttempts (Event.markNotReadonly :: Event.removeFile a :: l) =
      marksBeforeAttempts l := rfl

theorem mba_mark_removeDir (a : Nat) (l : List Event) :
    marksBeforeAttempts (Event.markNotReadonly :: Event.removeDir a :: l) =
      marksBeforeAttempts l := rfl

theorem mba_sleep (d : Nat) (l : List Event) :
    marksBeforeAttempts (Event.sleep d :: l) = marksBeforeAttempts l := rfl

theorem mba_kill (ps : List Nat) (l : List Event) :
    marksBeforeAttempts (Event.kill ps :: l) = marksBeforeAttempts l := rfl

theorem delete_file_loop_mba (cfg : ForceOpsConfig) (env : AttemptEnv)
    (path : String) :
    ∀ r a, marksBeforeAttempts (delete_file_loop cfg env path a r).2 = true := by
  intro r
  induction r with
  | zero => intro a; rfl
  | succ r ih =>
    intro a
    cases he : env.remove a with
    | none => simp [delete_file_loop, he, mba_mark_removeFile, mba_nil]
    | some e =>
      cases hex : env.exists_after a with
      | false => simp [delete_file_loop, he, hex, mba_mark_removeFile, mba_nil]
      | true =>
        cases hio : is_io_or_permission_error e with
        | false =>
          simp [delete_file_loop, he, hex, hio, mba_mark_removeFile, mba_nil]
        | true =>
          by_cases hlast : a > cfg.max_retries
          · simp [delete_file_loop, he, hex, hio, kill_processes_and_log_info,
              hlast, mba_mark_removeFile, mba_nil]
          · simp [delete_file_loop, he, hex, hio, kill_processes_and_log_info,
              hlast, mba_mark_removeFile, mba_sleep, mba_kill, ih (a + 1)]

theorem delete_empty_directory_loop_mba (cfg : ForceOpsConfig)
    (env : AttemptEnv) (path : String) :
    ∀ r a, marksBeforeAttempts
      (delete_empty_directory_loop cfg env path a r).2 = true := by
  intro r
  induction r with
  | zero => intro a; rfl
  | succ r ih =>
    intro a
    cases he : env.remove a with
    | none => simp [delete_empty_directory_loop, he, mba_mark_removeDir, mba_nil]
    | some e =>
      cases hex : env.exists_after a with
      | false =>
        simp [delete_empty_directory_loop, he, hex, mba_mark_removeDir, mba_nil]
      | true =>
        cases hio : is_io_error e with
        | false =>
          simp [delete_empty_directory_loop, he, hex, hio, mba_mark_removeDir,
            mba_nil]
        | true =>
          by_cases hlast : a > cfg.max_retries
          · simp [delete_empty_directory_loop, he, hex, hio,
              kill_processes_and_log_info, hlast, mba_mark_removeDir, mba_nil]
          · simp [delete_empty_directory_loop, he, hex, hio,
              kill_processes_and_log_info, hlast, mba_mark_removeDir,
              mba_sleep, mba_kill, ih (a + 1)]

theorem delete_directory_loop_no_mark (cfg : ForceOpsConfig) (env : DirEnv)
    (path : String) :
    ∀ r a, List.all (delete_directory_loop cfg env path a r).2
      (fun ev => !isMarkEv ev) = true := by
  intro r
  induction r with
  | zero => intro a; rfl
  | succ r ih =>
    intro a
    cases he : env.fast a with
    | none => simp [delete_directory_loop, he, isMarkEv]
    | some e =>
      cases hex : env.exists_after a with
      | false => simp [delete_directory_loop, he, hex, isMarkEv]
      | true =>
        cases hlock : is_lock_error_raw e with
        | false =>
          cases hre : env.exists_recheck a with
          | false => simp [delete_directory_loop, he, hex, hlock, hre, isMarkEv]
          | true => simp [delete_directory_loop, he, hex, hlock, hre, isMarkEv]
        | true =>
          by_cases hlast : a > cfg.max_retries
          · simp [delete_directory_loop, he, hex, hlock,
              kill_processes_and_log_info, hlast, isMarkEv]
          · have hrec := ih (a + 1)
            simp [delete_directory_loop, he, hex, hlock,
              kill_processes_and_log_info, hlast, isMarkEv] at hrec ⊢
            exact hrec

/-- Claim C5, counterexample: a single successful fast-path attempt of
delete_directory produces the trace [fastRemove 1] with no preceding
read-only-clearing event — the fast path performs no mark_as_not_readonly
call before its remove operation. -/
theorem c5_mark_before_attempt_cex :
    delete_directory (⟨0, 50, true⟩ : ForceOpsConfig)
        (⟨false, fun _ => none, fun _ => true, fun _ => true, fun _ => [],
          Res.ok,
          (⟨fun _ => none, fun _ => true, fun _ => []⟩ : AttemptEnv)⟩ : DirEnv)
        ("C:\\dir") =
      (Res.ok, [Event.fastRemove 1]) ∧
    marksBeforeAttempts [Event.fastRemove 1] = false := by
  refine ⟨by decide, by decide⟩

/-- Claim C5, amended: delete_file and delete_empty_directory clear the
read-only attribute immediately before every removal attempt, but the
fast-path loop of delete_directory performs no read-only clearing at all
before its remove_dir_all attempts. -/
theorem c5_mark_before_attempt_amended (cfg : ForceOpsConfig)
    (envf envl : AttemptEnv) (envd : DirEnv) (path : String) (a r : Nat) :
    marksBeforeAttempts (delete_file cfg envf path).2 = true ∧
    marksBeforeAttempts (delete_empty_directory cfg envl path).2 = true ∧
    List.all (delete_directory_loop cfg envd path a r).2
      (fun ev => !isMarkEv ev) = true := by
  refine ⟨?_, ?_, ?_⟩
  · exact delete_file_loop_mba cfg envf path (cfg.max_retries + 1) 1
  · exact delete_empty_directory_loop_mba cfg envl path (cfg.max_retries + 1) 1
  · exact delete_directory_loop_no_mark cfg envd path r a

theorem lookup_fsErase_ne (fs : Fs) (p q : FPath) (h : ¬ q = p) :
    List.lookup q (fsErase fs p) = List.lookup q fs := by
  induction fs with
  | nil => rfl
  | cons kv t ih =>
    by_cases hk : kv.1 = p
    · have hb : (kv.1 == p) = true := beq_iff_eq.mpr hk
      have hq : (q == kv.1) = false := by
        rw [hk]
        exact beq_eq_false_iff_ne.mpr h
      simp [fsErase, List.filter_cons, hb, List.lookup, hq] at ih ⊢
      exact ih
    · have hb : (kv.1 == p) = false := beq_eq_false_iff_ne.mpr hk
      by_cases hq : q = kv.1
      · have hqb : (q == kv.1) = true := beq_iff_eq.mpr hq
        simp [fsErase, List.filter_cons, hb, List.lookup, hqb]
      · have hqb : (q == kv.1) = false := beq_eq_false_iff_ne.mpr hq
        simp [fsErase, List.filter_cons, hb, List.lookup, hqb] at ih ⊢
        exact ih

theorem delete_file_fs_symlink (cfg : ForceOpsConfig) (fs : Fs) (p t : FPath)
    (hlink : List.lookup p fs = some (Node.symlink t)) :
    delete_file_fs cfg fs p = (DelRes.ok, fsErase fs p) := by
  rw [delete_file_fs]
  simp [delete_file_fs_loop, removeFileFs, hlink]

theorem delete_empty_directory_fs_symlink (cfg : ForceOpsConfig) (fs : Fs)
    (p t : FPath) (hlink : List.lookup p fs = some (Node.symlink t)) :
    delete_empty_directory_fs cfg fs p = (DelRes.ok, fsErase fs p) := by
  rw [delete_empty_directory_fs]
  simp [delete_empty_directory_fs_loop, removeDirFs, hlink]

/-- Claim C7: deleting a path that is a symbolic link removes at most the
link entry itself — every other entry of the filesystem (in particular the
link's target and all of the target's contents) is unchanged, whether the
link resolves to a file, to a directory (a directory-type reparse point)
or to nothing. -/
theorem c7_symlink_frame (cfg : ForceOpsConfig) (fs : Fs) (p t : FPath)
    (force : Bool) (fuel : Nat)
    (hlink : List.lookup p fs = some (Node.symlink t)) :
    ∀ q, ¬ q = p →
      List.lookup q (delete_file_or_directory cfg fs p force (fuel + 1)).2 =
        List.lookup q fs := by
  intro q hq
  have hsym : is_symlink fs p = true := by simp [is_symlink, hlink]
  cases hres : resolveNode fs linkHops p with
  | none =>
    have hf : isFileAt fs p = false := by simp [isFileAt, hres]
    have hd : isDirAt fs p = false := by simp [isDirAt, hres]
    cases force with
    | false => simp [delete_file_or_directory, hf, hd]
    | true => simp [delete_file_or_directory, hf, hd]
  | some node =>
    cases node with
    | file =>
      have hf : isFileAt fs p = true := by simp [isFileAt, hres]
      rw [delete_file_or_directory, if_pos hf,
        delete_file_fs_symlink cfg fs p t hlink]
      exact lookup_fsErase_ne fs p q hq
    | dir =>
      have hf : isFileAt fs p = false := by simp [isFileAt, hres]
      have hd : isDirAt fs p = true := by simp [isDirAt, hres]
      rw [delete_file_or_directory, if_neg (by simp [hf]), if_pos hd]
      rw [show delete_directory_fs cfg fs p (fuel + 1) =
        delete_empty_directory_fs cfg fs p from by
          simp [delete_directory_fs, hsym]]
      rw [delete_empty_directory_fs_symlink cfg fs p t hlink]
      exact lookup_fsErase_ne fs p q hq
    | symlink u =>
      have hf : isFileAt fs p = false := by simp [isFileAt, hres]
      have hd : isDirAt fs p = false := by simp [isDirAt, hres]
      cases force with
      | false => simp [delete_file_or_directory, hf, hd]
      | true => simp [delete_file_or_directory, hf, hd]

theorem c7_symlink_frame_witness :
    List.lookup (["c:", "real", "a.txt"] : FPath)
      (delete_file_or_directory (⟨10, 50, false⟩ : ForceOpsConfig)
        ([(["c:"], Node.dir), (["c:", "link"], Node.symlink ["c:", "real"]),
          (["c:", "real"], Node.dir), (["c:", "real", "a.txt"], Node.file)] : Fs)
        (["c:", "link"]) false 4).2 =
    List.lookup (["c:", "real", "a.txt"] : FPath)
      ([(["c:"], Node.dir), (["c:", "link"], Node.symlink ["c:", "real"]),
        (["c:", "real"], Node.dir), (["c:", "real", "a.txt"], Node.file)] : Fs) :=
  c7_symlink_frame (⟨10, 50, false⟩ : ForceOpsConfig)
    ([(["c:"], Node.dir), (["c:", "link"], Node.symlink ["c:", "real"]),
      (["c:", "real"], Node.dir), (["c:", "real", "a.txt"], Node.file)] : Fs)
    (["c:", "link"]) (["c:", "real"]) false 3 (by decide)
    (["c:", "real", "a.txt"]) (by decide)

/-- Claim C10: for a dangling symbolic link (the link entry exists but the
path it denotes does not resolve), delete_file_or_directory classifies the
path by following the link: with force = false it fails with the
no-such-file-or-directory error and with force = true it succeeds, and in
both cases the filesystem — including the link entry itself — is left
unchanged. -/
theorem c10_dangling_symlink (cfg : ForceOpsConfig) (fs : Fs) (p t : FPath)
    (fuel : Nat) (hlink : List.lookup p fs = some (Node.symlink t))
    (hdangling : resolveNode fs linkHops p = none) :
    delete_file_or_directory cfg fs p false (fuel + 1) =
      (DelRes.noSuchFileOrDirectory, fs) ∧
    delete_file_or_directory cfg fs p true (fuel + 1) = (DelRes.ok, fs) ∧
    List.lookup p (delete_file_or_directory cfg fs p false (fuel + 1)).2 =
      some (Node.symlink t) ∧
    List.lookup p (delete_file_or_directory cfg fs p true (fuel + 1)).2 =
      some (Node.symlink t) := by
  have hf : isFileAt fs p = false := by simp [isFileAt, hdangling]
  have hd : isDirAt fs p = false := by simp [isDirAt, hdangling]
  refine ⟨?_, ?_, ?_, ?_⟩ <;>
    simp [delete_file_or_directory, hf, hd, hlink]

theorem c10_dangling_symlink_witness :
    delete_file_or_directory (⟨10, 50, false⟩ : ForceOpsConfig)
        ([(["c:"], Node.dir), (["c:", "link"], Node.symlink ["c:", "gone"])] : Fs)
        (["c:", "link"]) false 4 =
      (DelRes.noSuchFileOrDirectory,
        ([(["c:"], Node.dir),
          (["c:", "link"], Node.symlink ["c:", "gone"])] : Fs)) ∧
    delete_file_or_directory (⟨10, 50, false⟩ : ForceOpsConfig)
        ([(["c:"], Node.dir), (["c:", "link"], Node.symlink ["c:", "gone"])] : Fs)
        (["c:", "link"]) true 4 =
      (DelRes.ok,
        ([(["c:"], Node.dir),
          (["c:", "link"], Node.symlink ["c:", "gone"])] : Fs)) :=
  ⟨(c10_dangling_symlink (⟨10, 50, false⟩ : ForceOpsConfig)
      ([(["c:"], Node.dir), (["c:", "link"], Node.symlink ["c:", "gone"])] : Fs)
      (["c:", "link"]) (["c:", "gone"]) 3 (by decide) (by decide)).1,
    (c10_dangling_symlink (⟨10, 50, false⟩ : ForceOpsConfig)
      ([(["c:"], Node.dir), (["c:", "link"], Node.symlink ["c:", "gone"])] : Fs)
      (["c:", "link"]) (["c:", "gone"]) 3 (by decide) (by decide)).2.1⟩

/-- Claim C8: in the directory lock scan, an enumerated process (other
than pid 0 and the caller's own pid) whose working directory could be read
is reported as a lock holder if and only if, after canonicalizing,
lower-casing and stripping the verbatim prefix from both sides, its
working-directory key starts with the target key or the target key starts
with its working-directory key. -/
theorem c8_scan_iff (env : ScanEnv) (path canon : String)
    (hcanon : env.canonical = some canon) (henum : env.enum_ok = true)
    (pid : Nat) (cwdv : String) (hmem : pid ∈ env.pids.take 4096)
    (h0 : ¬ pid = 0) (hself : ¬ pid = env.current_pid)
    (hcwd : env.cwd pid = some cwdv) :
    ∀ res, get_locking_processes_low_level env path = Except.ok res →
      ((∃ pi ∈ res, pi.process_id = pid) ↔
        (strStartsWith (normalizeKey cwdv) (normalizeKey canon) = true ∨
          strStartsWith (normalizeKey canon) (normalizeKey cwdv) = true)) := by
  intro res hres
  rw [get_locking_processes_low_level, hcanon] at hres
  simp only [henum, Bool.true_eq_false, if_false, Except.ok.injEq,
    reduceCtorEq, if_neg] at hres
  subst hres
  constructor
  · rintro ⟨pi, hpi, hpid⟩
    simp only [List.mem_filterMap] at hpi
    obtain ⟨x, hx, hfx⟩ := hpi
    by_cases hx0 : (x == 0 || x == env.current_pid) = true
    · rw [if_pos hx0] at hfx
      exact absurd hfx (by simp)
    · rw [if_neg hx0] at hfx
      cases hc : env.cwd x with
      | none => rw [hc] at hfx; exact absurd hfx (by simp)
      | some c =>
        rw [hc] at hfx
        simp only [] at hfx
        by_cases hcond : (strStartsWith (normalizeKey c) (normalizeKey canon) ||
            strStartsWith (normalizeKey canon) (normalizeKey c)) = true
        · rw [if_pos hcond] at hfx
          simp only [Option.some.injEq] at hfx
          have hxpid : x = pid := by rw [← hfx] at hpid; exact hpid
          subst hxpid
          rw [hcwd] at hc
          simp only [Option.some.injEq] at hc
          subst hc
          simp only [Bool.or_eq_true] at hcond
          exact hcond
        · rw [if_neg hcond] at hfx
          exact absurd hfx (by simp)
  · intro hcond
    have hcondb : (strStartsWith (normalizeKey cwdv) (normalizeKey canon) ||
        strStartsWith (normalizeKey canon) (normalizeKey cwdv)) = true := by
      simp only [Bool.or_eq_true]
      exact hcond
    refine ⟨⟨pid, env.exe pid, env.exe pid⟩, ?_, rfl⟩
    simp only [List.mem_filterMap]
    refine ⟨pid, hmem, ?_⟩
    have hb0 : (pid == 0 || pid == env.current_pid) = false := by
      simp [h0, hself]
    rw [if_neg (by rw [hb0]; simp)]
    rw [hcwd]
    simp only []
    rw [if_pos hcondb]

theorem c8_scan_iff_witness :
    ∃ pi ∈ [(⟨42, none, none⟩ : ProcessInfo)], pi.process_id = 42 :=
  (c8_scan_iff
    (⟨some "\\\\?\\C:\\Target", true, [0, 42, 7, 99], 7,
      fun p => if p == 42 then some "C:\\Target\\Sub" else
        if p == 99 then some "C:\\Other" else none,
      fun _ => none⟩ : ScanEnv)
    ("C:\\Target") ("\\\\?\\C:\\Target") rfl rfl 42 ("C:\\Target\\Sub")
    (by decide) (by decide) (by decide) (by decide)
    [(⟨42, none, none⟩ : ProcessInfo)]
    rfl).mpr (Or.inl (by decide))

/-- Claim C9: run_with_relaunch_as_elevated invokes the wrapped action
exactly once; an elevated relaunch happens at most once per invocation,
and exactly when the action's error message is classified
permission-related and the process is not already elevated; every other
error propagates unchanged. -/
theorem c9_elevation_once (env : ElevEnv) :
    List.countP (fun ev => ev == ElevEvent.runAction)
      (run_with_relaunch_as_elevated env).2 = 1 ∧
    List.countP (fun ev => ev == ElevEvent.relaunch)
      (run_with_relaunch_as_elevated env).2 ≤ 1 ∧
    (∀ msg, env.action = some msg →
      (ElevEvent.relaunch ∈ (run_with_relaunch_as_elevated env).2 ↔
        (is_permission_error msg = true ∧ env.is_elevated = false))) ∧
    (∀ msg, env.action = some msg →
      (is_permission_error msg = false ∨ env.is_elevated = true) →
      (run_with_relaunch_as_elevated env).1 = Res.errMsg msg) := by
  cases ha : env.action with
  | none =>
    refine ⟨by simp [run_with_relaunch_as_elevated, ha], ?_, ?_, ?_⟩
    · simp [run_with_relaunch_as_elevated, ha]
    · intro msg hmsg; exact absurd hmsg (by simp)
    · intro msg hmsg; exact absurd hmsg (by simp)
  | some m =>
    by_cases hp : (is_permission_error m && !env.is_elevated) = true
    · have hsplit : is_permission_error m = true ∧ (!env.is_elevated) = true := by
        simpa [Bool.and_eq_true] using hp
      have hperm : is_permission_error m = true := hsplit.1
      have helev : env.is_elevated = false := by
        have h2 := hsplit.2
        simpa using h2
      cases hre : env.relaunch_exit with
      | error e =>
        refine ⟨by simp [run_with_relaunch_as_elevated, ha, hp, hre], ?_, ?_, ?_⟩
        · simp [run_with_relaunch_as_elevated, ha, hp, hre]
        · intro msg hmsg
          simp only [Option.some.injEq] at hmsg
          subst hmsg
          simp [run_with_relaunch_as_elevated, ha, hp, hre, hperm, helev]
        · intro msg hmsg hcase
          simp only [Option.some.injEq] at hmsg
          subst hmsg
          rcases hcase with hcase | hcase
          · rw [hperm] at hcase; exact absurd hcase (by simp)
          · rw [helev] at hcase; exact absurd hcase (by simp)
      | ok exit_code =>
        by_cases hz : exit_code = 0
        · subst hz
          refine ⟨by simp [run_with_relaunch_as_elevated, ha, hp, hre], ?_, ?_, ?_⟩
          · simp [run_with_relaunch_as_elevated, ha, hp, hre]
          · intro msg hmsg
            simp only [Option.some.injEq] at hmsg
            subst hmsg
            simp [run_with_relaunch_as_elevated, ha, hp, hre, hperm, helev]
          · intro msg hmsg hcase
            simp only [Option.some.injEq] at hmsg
            subst hmsg
            rcases hcase with hcase | hcase
            · rw [hperm] at hcase; exact absurd hcase (by simp)
            · rw [helev] at hcase; exact absurd hcase (by simp)
        · refine ⟨by simp [run_with_relaunch_as_elevated, ha, hp, hre, hz], ?_,
            ?_, ?_⟩
          · simp [run_with_relaunch_as_elevated, ha, hp, hre, hz]
          · intro msg hmsg
            simp only [Option.some.injEq] at hmsg
            subst hmsg
            simp [run_with_relaunch_as_elevated, ha, hp, hre, hz, hperm, helev]
          · intro msg hmsg hcase
            simp only [Option.some.injEq] at hmsg
            subst hmsg
            rcases hcase with hcase | hcase
            · rw [hperm] at hcase; exact absurd hcase (by simp)
            · rw [helev] at hcase; exact absurd hcase (by simp)
    · refine ⟨by simp [run_with_relaunch_as_elevated, ha, hp], ?_, ?_, ?_⟩
      · simp [run_with_relaunch_as_elevated, ha, hp]
      · intro msg hmsg
        simp only [Option.some.injEq] at hmsg
        subst hmsg
        simp only [run_with_relaunch_as_elevated, ha, hp, Bool.false_eq_true,
          if_false, if_neg]
        constructor
        · intro hmem; exact absurd hmem (by simp)
        · rintro ⟨hperm, helev⟩
          exact absurd (by rw [hperm, helev]; rfl) hp
      · intro msg hmsg _
        simp only [Option.some.injEq] at hmsg
        subst hmsg
        simp [run_with_relaunch_as_elevated, ha, hp]

theorem c9_elevation_once_witness :
    (run_with_relaunch_as_elevated
      (⟨some "boom", false, Except.ok 0⟩ : ElevEnv)).1 =
      Res.errMsg "boom" :=
  (c9_elevation_once (⟨some "boom", false, Except.ok 0⟩ : ElevEnv)).2.2.2
    "boom" rfl (Or.inl (by decide))

theorem c1_retry_budget_witness :
    (isErrRes (delete_file (⟨2, 50, true⟩ : ForceOpsConfig)
        (⟨fun _ => some (⟨EKind.other, some 32, "os error 32"⟩ : IoErr),
          fun _ => true, fun _ => []⟩ : AttemptEnv) ("t")).1 = true ∧
      List.countP isRemoveFileEv (delete_file (⟨2, 50, true⟩ : ForceOpsConfig)
        (⟨fun _ => some (⟨EKind.other, some 32, "os error 32"⟩ : IoErr),
          fun _ => true, fun _ => []⟩ : AttemptEnv) ("t")).2 = 3) ∧
    (isErrRes (delete_directory (⟨2, 50, true⟩ : ForceOpsConfig)
        (⟨false, fun _ => some (⟨EKind.other, some 32, "os error 32"⟩ : IoErr),
          fun _ => true, fun _ => true, fun _ => [], Res.ok,
          (⟨fun _ => none, fun _ => true, fun _ => []⟩ : AttemptEnv)⟩ : DirEnv)
        ("t")).1 = true ∧
      List.countP isFastRemoveEv (delete_directory (⟨2, 50, true⟩ : ForceOpsConfig)
        (⟨false, fun _ => some (⟨EKind.other, some 32, "os error 32"⟩ : IoErr),
          fun _ => true, fun _ => true, fun _ => [], Res.ok,
          (⟨fun _ => none, fun _ => true, fun _ => []⟩ : AttemptEnv)⟩ : DirEnv)
        ("t")).2 = 3) :=
  c1_retry_budget (⟨2, 50, true⟩ : ForceOpsConfig)
    (⟨fun _ => some (⟨EKind.other, some 32, "os error 32"⟩ : IoErr),
      fun _ => true, fun _ => []⟩ : AttemptEnv)
    (⟨false, fun _ => some (⟨EKind.other, some 32, "os error 32"⟩ : IoErr),
      fun _ => true, fun _ => true, fun _ => [], Res.ok,
      (⟨fun _ => none, fun _ => true, fun _ => []⟩ : AttemptEnv)⟩ : DirEnv)
    ("t")
    (fun _ => ⟨(⟨EKind.other, some 32, "os error 32"⟩ : IoErr), rfl, by decide⟩)
    (fun _ => rfl)
    (fun _ => ⟨(⟨EKind.other, some 32, "os error 32"⟩ : IoErr), rfl, by decide⟩)
    (fun _ => rfl) rfl

theorem c6_vanished_is_success_witness :
    (delete_file (⟨5, 50, true⟩ : ForceOpsConfig)
      (⟨fun _ => some (⟨EKind.other, some 32, "os error 32"⟩ : IoErr),
        fun _ => false, fun _ => []⟩ : AttemptEnv) ("t")).1 = Res.ok :=
  (c6_vanished_is_success (⟨5, 50, true⟩ : ForceOpsConfig)
    (⟨fun _ => some (⟨EKind.other, some 32, "os error 32"⟩ : IoErr),
      fun _ => false, fun _ => []⟩ : AttemptEnv)
    (⟨fun _ => none, fun _ => true, fun _ => []⟩ : AttemptEnv)
    (⟨false, fun _ => none, fun _ => true, fun _ => true, fun _ => [], Res.ok,
      (⟨fun _ => none, fun _ => true, fun _ => []⟩ : AttemptEnv)⟩ : DirEnv)
    ("t") 1).1 rfl rfl (by decide)

end ForceOps
